import Mathlib

/-!
# tradingAce — verification of the event-ingestion / rewards-ledger / pub-sub pipeline

Shallow embedding of the repository's core operations:

* Event valuation (`internal/ethereum/event.go`, `ethereum.go`,
  `internal/ethereum/service.go`): the `big.Float` arithmetic over amounts that fit in
  uint256 is modelled exactly with `ℚ`; `big.Float.Int64` and Go's `int(float64)`
  conversion truncate toward zero, modelled by `truncInt`.
* The rewards ledger (`internal/db/service.go` `RecordSwapAndUpdatePoints`, and the
  `RecordSwap` of the main-package iteration): SQL tables are modelled as lists of rows
  plus address-keyed maps; the schema of `migrations/001_initial_schema.up.sql` declares
  `transaction_hash VARCHAR(66) NOT NULL` with **no** uniqueness constraint, so the
  `INSERT INTO swap_events` statements never fail on a duplicate hash and are modelled
  as unconditional appends.
* The weekly share-pool distributor (`CalculateWeeklySharePoolPoints`).
* The block poller (`cmd/tradingace/main.go` `processEthereumEvents`), with uint64
  cursor arithmetic modelled as `ℕ` with explicit wrap-around at `2 ^ 64`.
* The topic pub/sub broadcaster (`websocket.go`).
-/

namespace TradingAce

/-! ## Numeric primitives -/

/-- Truncation of a rational toward zero: the semantics of Go's `big.Float.Int64` and of
the conversions `int(...)` / `int64(...)` applied to a `float64`. -/
def truncInt (q : ℚ) : ℤ :=
  q.num.tdiv q.den

theorem truncInt_eq_floor {q : ℚ} (h : 0 ≤ q) : truncInt q = ⌊q⌋ := by
  rw [truncInt, Rat.floor_def]
  exact Int.tdiv_eq_ediv (Rat.num_nonneg.mpr h) (Int.ofNat_nonneg q.den)

/-! ## Event valuation -/

/-- Failure of a valuator on a swap whose relevant amounts are all zero
(`"invalid swap event: no input or output"`). -/
inductive ValuationError where
  | emptySwap
  deriving DecidableEq

/-- `calculateUSDValue` from `internal/ethereum/event.go` (part_007 lines 267-303):
adjust the four raw amounts for token decimals (WETH 18, USDC 6), then select the first
branch whose amount is nonzero in the order `amount0In`, `amount1Out`, `amount1In`,
`amount0Out`; the result is returned through `usdValue.Abs(usdValue)`. -/
def calculateUSDValue (ethPrice : ℚ)
    (amount0In amount1In amount0Out amount1Out : ℕ) : Except ValuationError ℚ :=
  let a0In : ℚ := (amount0In : ℚ) / 10 ^ 18
  let a1In : ℚ := (amount1In : ℚ) / 10 ^ 6
  let a0Out : ℚ := (amount0Out : ℚ) / 10 ^ 18
  let a1Out : ℚ := (amount1Out : ℚ) / 10 ^ 6
  if 0 < a0In then .ok |a0In * ethPrice|
  else if 0 < a1Out then .ok |a1Out|
  else if 0 < a1In then .ok |a1In|
  else if 0 < a0Out then .ok |a0Out * ethPrice|
  else .error .emptySwap

/-- `calculateUSDValue` from `ethereum.go` (lines 93-128): the pool price is derived
from the reserves, but only the `amount0In` and `amount1Out` branches exist; every
other combination of amounts falls through to the error. -/
def calculateUSDValueReserves (reserve0 reserve1 : ℕ)
    (amount0In amount1In amount0Out amount1Out : ℕ) : Except ValuationError ℚ :=
  let a0In : ℚ := (amount0In : ℚ) / 10 ^ 18
  let _a1In : ℚ := (amount1In : ℚ) / 10 ^ 6
  let _a0Out : ℚ := (amount0Out : ℚ) / 10 ^ 18
  let a1Out : ℚ := (amount1Out : ℚ) / 10 ^ 6
  let poolPrice : ℚ := ((reserve1 : ℚ) / 10 ^ 6) / ((reserve0 : ℚ) / 10 ^ 18)
  if 0 < a0In then .ok |a0In * poolPrice|
  else if 0 < a1Out then .ok |a1Out|
  else .error .emptySwap

/-- `calculateUSDValue` from `internal/ethereum/service.go` (lines 138-149): the
simplified valuator used by `ProcessSwapEvents` in `internal/ethereum/event.go`
(part_007 line 37); it sums the USDC sides only. -/
def calculateUSDValueSum (amount0In amount1In amount0Out amount1Out : ℕ) : ℚ :=
  let inValue : ℚ := (amount1In : ℚ) / 10 ^ 6
  let outValue : ℚ := (amount1Out : ℚ) / 10 ^ 6
  inValue + outValue

/-! ## Swap points -/

/-- `calculatePointsForSwap` from `internal/ethereum/event.go` (part_007 lines 116-122).
`usdValue.Quo(usdValue, big.NewFloat(10))` divides the caller's `big.Float` in place;
the embedding returns the pair (points, final contents of the caller's variable). -/
def calculatePointsForSwap (usdValue : ℚ) : ℤ × ℚ :=
  let q := usdValue / 10
  let points := truncInt q
  (if points < 1 then 1 else points, q)

/-- `calculatePoints` from `main.go` of the `internal/*` iteration (part_013 lines
193-196): `int64(usdValue / 10)`, with no minimum clamp. -/
def calculatePoints (usdValue : ℚ) : ℤ :=
  truncInt (usdValue / 10)

/-- What `ProcessSwapEvents` (part_007 lines 23-86) retains of one processed log. -/
structure ProcessedSwap where
  persistedUSD : ℚ
  points : ℤ
  deriving DecidableEq

/-- Per-event flow of `ProcessSwapEvents` (part_007 lines 37-54): compute the USD value,
compute points (which divides the shared `big.Float` by 10 in place), then read the
same variable back with `usdValue.Float64()` and hand it to
`RecordSwapAndUpdatePoints`. -/
def processSwapEvent (amount0In amount1In amount0Out amount1Out : ℕ) : ProcessedSwap :=
  let usdValue := calculateUSDValueSum amount0In amount1In amount0Out amount1Out
  let r := calculatePointsForSwap usdValue
  { persistedUSD := r.2, points := r.1 }

/-! ## Theorems: valuation and points -/

theorem natCast_div_pos_iff (n : ℕ) (c : ℚ) (hc : 0 < c) :
    (0 < (n : ℚ) / c) ↔ 0 < n := by
  rw [div_pos_iff]
  constructor
  · rintro (⟨h, -⟩ | ⟨-, h⟩)
    · exact_mod_cast Nat.cast_pos.mp h
    · exact absurd hc (not_lt.mpr h.le)
  · intro h
    exact Or.inl ⟨by exact_mod_cast h, hc⟩

/-- C4: for the four-branch valuator of `internal/ethereum/event.go`, the branch is
selected in the fixed order `amount0In` (times price), `amount1Out` (direct),
`amount1In` (direct), `amount0Out` (times price); if all four amounts are zero the
result is the empty-swap error; and any returned value is nonnegative. -/
theorem calculateUSDValue_branch_order (ethPrice : ℚ)
    (amount0In amount1In amount0Out amount1Out : ℕ) :
    (calculateUSDValue ethPrice amount0In amount1In amount0Out amount1Out =
      if 0 < amount0In then .ok |(amount0In : ℚ) / 10 ^ 18 * ethPrice|
      else if 0 < amount1Out then .ok ((amount1Out : ℚ) / 10 ^ 6)
      else if 0 < amount1In then .ok ((amount1In : ℚ) / 10 ^ 6)
      else if 0 < amount0Out then .ok |(amount0Out : ℚ) / 10 ^ 18 * ethPrice|
      else .error .emptySwap)
    ∧ (match calculateUSDValue ethPrice amount0In amount1In amount0Out amount1Out with
       | .ok v => 0 ≤ v
       | .error _ => True) := by
  have h18 : (0 : ℚ) < 10 ^ 18 := by norm_num
  have h6 : (0 : ℚ) < 10 ^ 6 := by norm_num
  have e : calculateUSDValue ethPrice amount0In amount1In amount0Out amount1Out =
      if 0 < amount0In then .ok |(amount0In : ℚ) / 10 ^ 18 * ethPrice|
      else if 0 < amount1Out then .ok ((amount1Out : ℚ) / 10 ^ 6)
      else if 0 < amount1In then .ok ((amount1In : ℚ) / 10 ^ 6)
      else if 0 < amount0Out then .ok |(amount0Out : ℚ) / 10 ^ 18 * ethPrice|
      else .error .emptySwap := by
    rw [calculateUSDValue]
    simp only [natCast_div_pos_iff _ _ h18, natCast_div_pos_iff _ _ h6]
    have habs : |(amount1Out : ℚ) / 10 ^ 6| = (amount1Out : ℚ) / 10 ^ 6 :=
      abs_of_nonneg (by positivity)
    have habs2 : |(amount1In : ℚ) / 10 ^ 6| = (amount1In : ℚ) / 10 ^ 6 :=
      abs_of_nonneg (by positivity)
    rw [habs, habs2]
  refine ⟨e, ?_⟩
  rw [e]
  split_ifs <;> simp [abs_nonneg] <;> positivity

/-- C4 counterexample: the valuator of `ethereum.go` fails on a swap whose only nonzero
amount is `amount1In` (a pure USDC-in swap), instead of returning that amount
directly as the claimed third branch requires. -/
theorem calculateUSDValueReserves_missing_branch :
    calculateUSDValueReserves (10 ^ 18) (2000 * 10 ^ 6) 0 (5 * 10 ^ 6) 0 0 =
      .error .emptySwap
    ∧ 0 < 5 * 10 ^ 6 := by
  constructor
  · simp only [calculateUSDValueReserves]
    norm_num
  · norm_num

/-- C5: for every nonnegative USD value, `calculatePointsForSwap` returns
`floor (v / 10)` except that it returns 1 when the quotient is below 1, hence always at
least 1 point. -/
theorem calculatePointsForSwap_min_one (v : ℚ) (h : 0 ≤ v) :
    (calculatePointsForSwap v).1 = (if v / 10 < 1 then 1 else ⌊v / 10⌋)
    ∧ 1 ≤ (calculatePointsForSwap v).1 := by
  have hq : (0 : ℚ) ≤ v / 10 := by positivity
  have ht : truncInt (v / 10) = ⌊v / 10⌋ := truncInt_eq_floor hq
  have hlt : (⌊v / 10⌋ < 1) ↔ v / 10 < 1 := by
    simpa using Int.floor_lt (α := ℚ) (z := 1) (a := v / 10)
  constructor
  · rw [calculatePointsForSwap]
    simp only [ht]
    by_cases hc : v / 10 < 1
    · simp [hlt.mpr hc, hc]
    · simp [hc, hlt, if_neg]
  · rw [calculatePointsForSwap]
    simp only [ht]
    by_cases hc : (⌊v / 10⌋ : ℤ) < 1
    · simp [hc]
    · simp [hc]
      omega

theorem calculatePointsForSwap_min_one_witness :
    (0 : ℚ) ≤ 25
    ∧ ((calculatePointsForSwap 25).1 = (if (25 : ℚ) / 10 < 1 then 1 else ⌊(25 : ℚ) / 10⌋)
        ∧ 1 ≤ (calculatePointsForSwap 25).1) :=
  ⟨by norm_num, calculatePointsForSwap_min_one 25 (by norm_num)⟩

/-- C5 counterexample: `calculatePoints` of `main.go` (part_013) awards 0 points for a
5-USD swap; the claimed minimum of 1 point does not hold for this variant. -/
theorem calculatePoints_no_minimum :
    calculatePoints 5 = 0 ∧ ¬(1 ≤ calculatePoints 5) := by
  have h : calculatePoints 5 = 0 := by
    rw [calculatePoints, truncInt_eq_floor (by norm_num)]
    rw [Int.floor_eq_iff]
    norm_num
  refine ⟨h, ?_⟩
  rw [h]
  decide

/-- C9: `calculatePointsForSwap` leaves the caller's `big.Float` holding the original
value divided by 10, and `ProcessSwapEvents` persists that mutated value — not the
value the valuator computed — whenever the computed value is nonzero. -/
theorem processSwapEvent_persists_mutated_value
    (amount0In amount1In amount0Out amount1Out : ℕ) :
    (∀ v : ℚ, (calculatePointsForSwap v).2 = v / 10)
    ∧ (processSwapEvent amount0In amount1In amount0Out amount1Out).persistedUSD
        = calculateUSDValueSum amount0In amount1In amount0Out amount1Out / 10
    ∧ (calculateUSDValueSum amount0In amount1In amount0Out amount1Out ≠ 0 →
        (processSwapEvent amount0In amount1In amount0Out amount1Out).persistedUSD
          ≠ calculateUSDValueSum amount0In amount1In amount0Out amount1Out) := by
  refine ⟨fun v => rfl, rfl, fun hne heq => hne ?_⟩
  have : calculateUSDValueSum amount0In amount1In amount0Out amount1Out / 10 =
      calculateUSDValueSum amount0In amount1In amount0Out amount1Out := heq
  linarith [this]

theorem processSwapEvent_persists_mutated_value_witness :
    calculateUSDValueSum 0 30000000 0 0 ≠ 0
    ∧ (processSwapEvent 0 30000000 0 0).persistedUSD ≠ calculateUSDValueSum 0 30000000 0 0 := by
  have h : calculateUSDValueSum 0 30000000 0 0 ≠ 0 := by
    rw [calculateUSDValueSum]
    norm_num
  exact ⟨h, (processSwapEvent_persists_mutated_value 0 30000000 0 0).2.2 h⟩

/-! ## Weekly share-pool distribution -/

/-- One row of the eligible-users query in `CalculateWeeklySharePoolPoints` (part_003
lines 233-260): onboarded users with positive trailing-window volume, ordered by
volume descending. -/
structure WUser where
  id : ℕ
  address : String
  volume : ℚ
  deriving DecidableEq

/-- The per-user award the spec describes: `floor (pool * userVolume / totalVolume)`,
raised to 1 when the floor is 0. Stated from the spec's words for comparison with the
loop below. -/
def specShare (totalVolume : ℚ) (u : WUser) : ℤ :=
  let f := ⌊10000 * u.volume / totalVolume⌋
  if f = 0 then 1 else f

/-- The distribution loop of `CalculateWeeklySharePoolPoints` (part_003 lines 266-292):
every user except the last gets `int((user.Volume / totalVolume) * 10000)` raised to 1
when the truncation gives 0; the last user gets all remaining points. -/
def distributeShare (totalVolume : ℚ) : List WUser → ℤ → List ℤ
  | [], _ => []
  | [_], remainingPoints => [remainingPoints]
  | u :: v :: rest, remainingPoints =>
    let p0 := truncInt (u.volume / totalVolume * 10000)
    let p := if p0 = 0 then 1 else p0
    p :: distributeShare totalVolume (v :: rest) (remainingPoints - p)

/-- `CalculateWeeklySharePoolPoints` (part_003): the list of awarded points in query
order, distributed from the fixed 10000-point pool. -/
def calculateWeeklySharePoolPoints (totalVolume : ℚ) (users : List WUser) : List ℤ :=
  distributeShare totalVolume users 10000

theorem distributeShare_eq (tv : ℚ) (htv : 0 < tv) :
    ∀ (us : List WUser) (rem : ℤ), us ≠ [] → (∀ u ∈ us, 0 < u.volume) →
      distributeShare tv us rem
        = us.dropLast.map (specShare tv) ++ [rem - (us.dropLast.map (specShare tv)).sum]
  | [], _, hne, _ => absurd rfl hne
  | [u], rem, _, _ => by
    simp [distributeShare, List.dropLast]
  | u :: v :: rest, rem, _, hvol => by
    have hvolu : 0 < u.volume := hvol u (by simp)
    have hstep : truncInt (u.volume / tv * 10000) = ⌊10000 * u.volume / tv⌋ := by
      rw [truncInt_eq_floor (by positivity),
        show u.volume / tv * 10000 = 10000 * u.volume / tv by ring]
    have ih := distributeShare_eq tv htv (v :: rest)
      (rem - (if ⌊10000 * u.volume / tv⌋ = 0 then 1 else ⌊10000 * u.volume / tv⌋))
      (by simp) (fun w hw => hvol w (List.mem_cons_of_mem _ hw))
    rw [distributeShare]
    simp only [hstep]
    rw [ih]
    simp [List.dropLast, specShare, sub_sub]

/-- C2: a Weekly Distributor run (part_003's `CalculateWeeklySharePoolPoints`) over a
nonempty eligible-user list with positive total volume awards every user except the
last `floor (10000 * userVolume / totalVolume)` raised to 1 when 0, awards the last
user the pool minus what was already awarded, and so distributes exactly 10000
points. -/
theorem calculateWeeklySharePoolPoints_exact (tv : ℚ) (users : List WUser)
    (hne : users ≠ []) (htv : 0 < tv) (hvol : ∀ u ∈ users, 0 < u.volume) :
    calculateWeeklySharePoolPoints tv users
      = users.dropLast.map (specShare tv)
        ++ [10000 - (users.dropLast.map (specShare tv)).sum]
    ∧ (calculateWeeklySharePoolPoints tv users).sum = 10000 := by
  have e := distributeShare_eq tv htv users 10000 hne hvol
  rw [calculateWeeklySharePoolPoints]
  refine ⟨e, ?_⟩
  rw [e, List.sum_append, List.sum_cons, List.sum_nil]
  ring

/-- Example eligible-user list for the distribution-exactness witness. -/
def weeklyUsersExample : List WUser :=
  [⟨1, "0xa", 100⟩, ⟨2, "0xb", 150⟩, ⟨3, "0xc", 50⟩]

theorem calculateWeeklySharePoolPoints_exact_witness :
    weeklyUsersExample ≠ [] ∧ (0 : ℚ) < 300 ∧ (∀ u ∈ weeklyUsersExample, 0 < u.volume)
    ∧ (calculateWeeklySharePoolPoints 300 weeklyUsersExample).sum = 10000 := by
  have h1 : weeklyUsersExample ≠ [] := by simp [weeklyUsersExample]
  have h2 : (0 : ℚ) < 300 := by norm_num
  have h3 : ∀ u ∈ weeklyUsersExample, 0 < u.volume := by
    simp [weeklyUsersExample]
  exact ⟨h1, h2, h3, (calculateWeeklySharePoolPoints_exact 300 weeklyUsersExample h1 h2 h3).2⟩

/-! ## Campaign configuration and the main-package ledger (part_003) -/

/-- A `campaign_config` row (part_003 lines 14-19), with timestamps as naturals. -/
structure CampaignConfig where
  id : ℕ
  startTime : ℕ
  endTime : ℕ
  isActive : Bool
  deriving DecidableEq

/-- The columns of `users` read or written by `RecordSwap`
(schema `001_create_initial_tables.up.sql`). -/
structure UserRow where
  onboardingCompleted : Bool
  onboardingPoints : ℤ
  deriving DecidableEq

/-- A `swap_events` row as inserted by `RecordSwap`. The `user_id` foreign key is
represented by the user's address: `users.address` is UNIQUE, so SERIAL ids and
addresses are in bijection. -/
structure SwapEventRow where
  address : String
  txHash : String
  amountUSD : ℚ
  timestamp : ℕ
  deriving DecidableEq

/-- A `points_history` row, with `user_id` likewise represented by the address. -/
structure PointsHistoryRow where
  address : String
  points : ℤ
  reason : String
  timestamp : ℕ
  deriving DecidableEq

/-- The storage touched by `RecordSwap`: the `users` table keyed by its UNIQUE address
column, plus the append-only `swap_events` and `points_history` tables. -/
structure LedgerState where
  users : String → Option UserRow
  swapEvents : List SwapEventRow
  pointsHistory : List PointsHistoryRow

def emptyLedger : LedgerState :=
  { users := fun _ => none, swapEvents := [], pointsHistory := [] }

/-- `RecordSwap` (part_003 lines 137-193). Outside the campaign window it returns nil
without touching storage. Otherwise it upserts the user (`ON CONFLICT (address) DO
UPDATE SET address = EXCLUDED.address` keeps the existing row), inserts the swap event
(the schema has no uniqueness constraint on `transaction_hash`, so the insert always
succeeds), and when `amountUSD >= 1000` and the user's onboarding flag is unset it sets
`onboarding_completed = true`, `onboarding_points = 100` and appends the 100-point
history row with reason `'Onboarding task completed'`. -/
def recordSwap (config : CampaignConfig) (now : ℕ) (st : LedgerState)
    (address : String) (amountUSD : ℚ) (txHash : String) : LedgerState :=
  if config.isActive = false ∨ now < config.startTime ∨ config.endTime < now then
    st
  else
    let u := (st.users address).getD { onboardingCompleted := false, onboardingPoints := 0 }
    let users1 := fun a => if a = address then some u else st.users a
    let events1 := st.swapEvents ++ [⟨address, txHash, amountUSD, now⟩]
    if (1000 : ℚ) ≤ amountUSD then
      if u.onboardingCompleted then
        { users := users1, swapEvents := events1, pointsHistory := st.pointsHistory }
      else
        { users := fun a =>
            if a = address then
              some { onboardingCompleted := true, onboardingPoints := 100 }
            else st.users a
          swapEvents := events1
          pointsHistory := st.pointsHistory
            ++ [⟨address, 100, "Onboarding task completed", now⟩] }
    else
      { users := users1, swapEvents := events1, pointsHistory := st.pointsHistory }

/-- One swap handed to `RecordSwap`: USD amount, transaction hash, receipt time. -/
structure SwapRequest where
  amountUSD : ℚ
  txHash : String
  time : ℕ
  deriving DecidableEq

/-- Processing a sequence of swaps of one user through `RecordSwap`. -/
def runSwaps (config : CampaignConfig) (address : String) (st : LedgerState)
    (reqs : List SwapRequest) : LedgerState :=
  reqs.foldl (fun s r => recordSwap config r.time s address r.amountUSD r.txHash) st

/-- Whether `RecordSwap` lets a swap through its campaign-window guard. -/
def acceptedSwap (config : CampaignConfig) (r : SwapRequest) : Bool :=
  config.isActive && decide (config.startTime ≤ r.time) && decide (r.time ≤ config.endTime)

/-- An accepted swap that reaches the onboarding threshold. -/
def qualifyingSwap (config : CampaignConfig) (r : SwapRequest) : Bool :=
  acceptedSwap config r && decide ((1000 : ℚ) ≤ r.amountUSD)

/-- The user's `onboarding_completed` flag (false when the row does not exist). -/
def onboardingFlag (st : LedgerState) (address : String) : Bool :=
  ((st.users address).map (fun u => u.onboardingCompleted)).getD false

/-- Number of 100-point onboarding history rows recorded for an address. -/
def onboardingAwardsIn (l : List PointsHistoryRow) (address : String) : ℕ :=
  (l.filter (fun row =>
    row.address == address && row.reason == "Onboarding task completed"
      && row.points == 100)).length

def onboardingAwards (st : LedgerState) (address : String) : ℕ :=
  onboardingAwardsIn st.pointsHistory address

theorem acceptedSwap_false_guard (config : CampaignConfig) (r : SwapRequest)
    (h : acceptedSwap config r = false) :
    config.isActive = false ∨ r.time < config.startTime ∨ config.endTime < r.time := by
  by_contra hc
  push_neg at hc
  obtain ⟨h1, h2, h3⟩ := hc
  have h1t : config.isActive = true := by
    cases hb : config.isActive
    · exact absurd hb h1
    · rfl
  have ht : acceptedSwap config r = true := by
    simp [acceptedSwap, h1t]
    omega
  rw [ht] at h
  exact Bool.noConfusion h

theorem acceptedSwap_true_guard (config : CampaignConfig) (r : SwapRequest)
    (h : acceptedSwap config r = true) :
    ¬(config.isActive = false ∨ r.time < config.startTime ∨ config.endTime < r.time) := by
  simp only [acceptedSwap, Bool.and_eq_true, decide_eq_true_eq] at h
  obtain ⟨⟨h1, h2⟩, h3⟩ := h
  rintro (h4 | h4 | h4)
  · rw [h1] at h4; exact Bool.noConfusion h4
  · omega
  · omega

theorem recordSwap_rejected_step (config : CampaignConfig) (st : LedgerState)
    (address : String) (r : SwapRequest) (h : acceptedSwap config r = false) :
    recordSwap config r.time st address r.amountUSD r.txHash = st := by
  rw [recordSwap, if_pos (acceptedSwap_false_guard config r h)]

theorem recordSwap_flag_true_step (config : CampaignConfig) (st : LedgerState)
    (address : String) (r : SwapRequest)
    (h : onboardingFlag st address = true) :
    onboardingFlag (recordSwap config r.time st address r.amountUSD r.txHash) address = true
    ∧ (recordSwap config r.time st address r.amountUSD r.txHash).pointsHistory
        = st.pointsHistory := by
  obtain ⟨u0, hu0, hu0flag⟩ :
      ∃ u0, st.users address = some u0 ∧ u0.onboardingCompleted = true := by
    unfold onboardingFlag at h
    cases hu : st.users address with
    | none => rw [hu] at h; simp at h
    | some u => rw [hu] at h; simp at h; exact ⟨u, rfl, h⟩
  by_cases h1 : config.isActive = false ∨ r.time < config.startTime ∨ config.endTime < r.time
  · rw [recordSwap, if_pos h1]
    exact ⟨h, rfl⟩
  by_cases h2 : (1000 : ℚ) ≤ r.amountUSD
  · rw [recordSwap, if_neg h1, if_pos h2,
      if_pos (show ((st.users address).getD
        { onboardingCompleted := false, onboardingPoints := 0 }).onboardingCompleted
          = true by rw [hu0]; simpa using hu0flag)]
    exact ⟨by simp [onboardingFlag, hu0, hu0flag], rfl⟩
  · rw [recordSwap, if_neg h1, if_neg h2]
    exact ⟨by simp [onboardingFlag, hu0, hu0flag], rfl⟩

theorem recordSwap_not_qualifying_step (config : CampaignConfig) (st : LedgerState)
    (address : String) (r : SwapRequest)
    (hq : qualifyingSwap config r = false) :
    onboardingFlag (recordSwap config r.time st address r.amountUSD r.txHash) address
      = onboardingFlag st address
    ∧ (recordSwap config r.time st address r.amountUSD r.txHash).pointsHistory
        = st.pointsHistory := by
  rcases Bool.eq_false_or_eq_true (acceptedSwap config r) with hacc | hacc
  · have hamt : ¬((1000 : ℚ) ≤ r.amountUSD) := by
      simp only [qualifyingSwap, Bool.and_eq_false_iff, decide_eq_false_iff_not] at hq
      rcases hq with hq | hq
      · rw [hacc] at hq; exact Bool.noConfusion hq
      · exact hq
    rw [recordSwap, if_neg (acceptedSwap_true_guard config r hacc), if_neg hamt]
    refine ⟨?_, rfl⟩
    unfold onboardingFlag
    cases hu : st.users address with
    | none => simp [hu]
    | some u => simp [hu]
  · rw [recordSwap_rejected_step config st address r hacc]
    exact ⟨rfl, rfl⟩

theorem recordSwap_first_qualifying_step (config : CampaignConfig) (st : LedgerState)
    (address : String) (r : SwapRequest)
    (hflag : onboardingFlag st address = false)
    (hq : qualifyingSwap config r = true) :
    onboardingFlag (recordSwap config r.time st address r.amountUSD r.txHash) address = true
    ∧ (recordSwap config r.time st address r.amountUSD r.txHash).pointsHistory
        = st.pointsHistory ++ [⟨address, 100, "Onboarding task completed", r.time⟩] := by
  simp only [qualifyingSwap, Bool.and_eq_true, decide_eq_true_eq] at hq
  obtain ⟨hacc, hamt⟩ := hq
  have hucomp :
      ((st.users address).getD
        { onboardingCompleted := false, onboardingPoints := 0 }).onboardingCompleted
        = false := by
    unfold onboardingFlag at hflag
    cases hu : st.users address with
    | none => simp
    | some u => rw [hu] at hflag; simp at hflag; simp [hflag]
  rw [recordSwap, if_neg (acceptedSwap_true_guard config r hacc), if_pos hamt,
    if_neg (by rw [hucomp]; exact Bool.false_ne_true)]
  constructor
  · simp [onboardingFlag]
  · rfl

theorem onboardingAwardsIn_append_award (l : List PointsHistoryRow) (address : String)
    (t : ℕ) :
    onboardingAwardsIn (l ++ [⟨address, 100, "Onboarding task completed", t⟩]) address
      = onboardingAwardsIn l address + 1 := by
  unfold onboardingAwardsIn
  rw [List.filter_append, List.length_append]
  simp

theorem runSwaps_flag_true (config : CampaignConfig) (address : String) :
    ∀ (reqs : List SwapRequest) (st : LedgerState),
      onboardingFlag st address = true →
      onboardingFlag (runSwaps config address st reqs) address = true
      ∧ onboardingAwards (runSwaps config address st reqs) address
          = onboardingAwards st address
  | [], st, h => ⟨h, rfl⟩
  | r :: rest, st, h => by
    have step := recordSwap_flag_true_step config st address r h
    have ih := runSwaps_flag_true config address rest
      (recordSwap config r.time st address r.amountUSD r.txHash) step.1
    have hfold : runSwaps config address st (r :: rest)
        = runSwaps config address
            (recordSwap config r.time st address r.amountUSD r.txHash) rest := rfl
    rw [hfold]
    refine ⟨ih.1, ?_⟩
    rw [ih.2]
    unfold onboardingAwards
    rw [step.2]

/-- C3 (amended): starting from a state where the user's onboarding flag is unset and
no onboarding history row exists, processing any sequence of that user's swaps through
`RecordSwap` records the 100-point history row with reason
`'Onboarding task completed'` exactly once if some accepted swap reaches 1000 USD and
never otherwise, and the onboarding flag ends up set exactly in the former case. -/
theorem recordSwap_onboarding_exactly_once (config : CampaignConfig) (address : String)
    (reqs : List SwapRequest) (st : LedgerState)
    (hflag : onboardingFlag st address = false)
    (hcount : onboardingAwards st address = 0) :
    onboardingAwards (runSwaps config address st reqs) address
      = (if reqs.any (qualifyingSwap config) then 1 else 0)
    ∧ onboardingFlag (runSwaps config address st reqs) address
      = reqs.any (qualifyingSwap config) := by
  induction reqs generalizing st with
  | nil => simpa [runSwaps] using ⟨hcount, hflag⟩
  | cons r rest ih =>
    have hfold : runSwaps config address st (r :: rest)
        = runSwaps config address
            (recordSwap config r.time st address r.amountUSD r.txHash) rest := rfl
    rcases Bool.eq_false_or_eq_true (qualifyingSwap config r) with hq | hq
    · have step := recordSwap_first_qualifying_step config st address r hflag hq
      have abs := runSwaps_flag_true config address rest
        (recordSwap config r.time st address r.amountUSD r.txHash) step.1
      rw [hfold, List.any_cons, hq, Bool.true_or]
      refine ⟨?_, abs.1⟩
      rw [abs.2]
      unfold onboardingAwards
      rw [step.2, onboardingAwardsIn_append_award]
      unfold onboardingAwards at hcount
      rw [hcount]
      simp
    · have step := recordSwap_not_qualifying_step config st address r hq
      have ihh := ih (recordSwap config r.time st address r.amountUSD r.txHash)
        (by rw [step.1]; exact hflag)
        (by unfold onboardingAwards; rw [step.2]; exact hcount)
      rw [hfold, List.any_cons, hq, Bool.false_or]
      exact ihh

theorem recordSwap_onboarding_exactly_once_witness :
    onboardingFlag emptyLedger "0xA" = false
    ∧ onboardingAwards emptyLedger "0xA" = 0
    ∧ (onboardingAwards
        (runSwaps ⟨1, 0, 1000, true⟩ "0xA" emptyLedger
          [⟨1500, "0xh1", 5⟩, ⟨2000, "0xh2", 6⟩]) "0xA"
        = (if ([⟨1500, "0xh1", 5⟩, ⟨2000, "0xh2", 6⟩] : List SwapRequest).any
            (qualifyingSwap ⟨1, 0, 1000, true⟩) then 1 else 0)
      ∧ onboardingFlag
          (runSwaps ⟨1, 0, 1000, true⟩ "0xA" emptyLedger
            [⟨1500, "0xh1", 5⟩, ⟨2000, "0xh2", 6⟩]) "0xA"
        = ([⟨1500, "0xh1", 5⟩, ⟨2000, "0xh2", 6⟩] : List SwapRequest).any
            (qualifyingSwap ⟨1, 0, 1000, true⟩)) :=
  ⟨rfl, rfl, recordSwap_onboarding_exactly_once ⟨1, 0, 1000, true⟩ "0xA"
    [⟨1500, "0xh1", 5⟩, ⟨2000, "0xh2", 6⟩] emptyLedger rfl rfl⟩

/-- C3 counterexample: the first qualifying swap appends its history row with reason
`'Onboarding task completed'`, not `"Onboarding"` — no row with reason `"Onboarding"`
is ever written. -/
theorem recordSwap_onboarding_reason_counterexample :
    ((recordSwap ⟨1, 0, 1000, true⟩ 5 emptyLedger "0xA" 1500 "0xh1").pointsHistory.filter
        (fun row => row.reason == "Onboarding")).length = 0
    ∧ ((recordSwap ⟨1, 0, 1000, true⟩ 5 emptyLedger "0xA" 1500 "0xh1").pointsHistory.filter
        (fun row => row.reason == "Onboarding task completed")).length = 1
    ∧ (recordSwap ⟨1, 0, 1000, true⟩ 5 emptyLedger "0xA" 1500 "0xh1").pointsHistory
        = [⟨"0xA", 100, "Onboarding task completed", 5⟩] := by
  have hrec : (recordSwap ⟨1, 0, 1000, true⟩ 5 emptyLedger "0xA" 1500 "0xh1").pointsHistory
      = [⟨"0xA", 100, "Onboarding task completed", 5⟩] := by
    rw [recordSwap]
    norm_num [emptyLedger]
  refine ⟨?_, ?_, hrec⟩ <;> rw [hrec] <;> rfl

/-- C10: a swap submitted to `RecordSwap` while the campaign is inactive, or before its
start time, or after its end time, is silently ignored: the call returns nil and the
storage state — users, swap events and points history — is exactly the state before the
call. -/
theorem recordSwap_outside_campaign (config : CampaignConfig) (now : ℕ)
    (st : LedgerState) (address : String) (amountUSD : ℚ) (txHash : String)
    (h : config.isActive = false ∨ now < config.startTime ∨ config.endTime < now) :
    recordSwap config now st address amountUSD txHash = st := by
  rw [recordSwap, if_pos h]

theorem recordSwap_outside_campaign_witness :
    ((⟨1, 0, 100, false⟩ : CampaignConfig).isActive = false
      ∨ (5 : ℕ) < (⟨1, 0, 100, false⟩ : CampaignConfig).startTime
      ∨ (⟨1, 0, 100, false⟩ : CampaignConfig).endTime < 5)
    ∧ recordSwap ⟨1, 0, 100, false⟩ 5 emptyLedger "0xA" 1500 "0xh" = emptyLedger :=
  ⟨Or.inl rfl,
    recordSwap_outside_campaign ⟨1, 0, 100, false⟩ 5 emptyLedger "0xA" 1500 "0xh"
      (Or.inl rfl)⟩

/-! ## The DBService ledger (internal/db/service.go) -/

/-- A `swap_events` row as inserted by `RecordSwapAndUpdatePoints` (service.go lines
331-334): sender address, USD amount, transaction hash. -/
structure ServiceSwapRow where
  sender : String
  amountUSD : ℚ
  txHash : String
  deriving DecidableEq

/-- A `points_history` row written by the DBService operations; the `user_id` that
`INSERT ... SELECT id FROM users WHERE address = $1` resolves is represented by the
address itself (`users.address` is UNIQUE). -/
structure ServiceHistoryRow where
  address : String
  points : ℤ
  reason : String
  deriving DecidableEq

/-- The storage touched by `RecordSwapAndUpdatePoints` and
`CalculateWeeklySharePoolPoints`: `users.total_points` and `leaderboard.points` keyed
by address, plus the append-only `swap_events` and `points_history` tables. -/
structure ServiceDBState where
  userPoints : String → Option ℤ
  swapEvents : List ServiceSwapRow
  pointsHistory : List ServiceHistoryRow
  leaderboard : String → Option ℤ

def emptyServiceDB : ServiceDBState :=
  { userPoints := fun _ => none, swapEvents := [], pointsHistory := [],
    leaderboard := fun _ => none }

/-- `INSERT ... VALUES ($1, $2) ON CONFLICT (address) DO UPDATE SET points =
<table>.points + $2`: create the row with `points`, or add `points` to it. -/
def upsertAdd (m : String → Option ℤ) (address : String) (points : ℤ) :
    String → Option ℤ :=
  fun a => if a = address then some ((m address).getD 0 + points) else m a

/-- `RecordSwapAndUpdatePoints` (service.go lines 323-373): inside one transaction,
insert the swap event, upsert the user's `total_points`, append the `'Swap'` history
row, and upsert the leaderboard. The schema (`migrations/001_initial_schema.up.sql`
lines 10-17) declares `transaction_hash VARCHAR(66) NOT NULL` with no uniqueness
constraint, so the swap-event insert succeeds for any hash — including one already
recorded — and the transaction commits. -/
def recordSwapAndUpdatePoints (st : ServiceDBState) (address : String) (usdValue : ℚ)
    (points : ℤ) (txHash : String) : ServiceDBState :=
  { userPoints := upsertAdd st.userPoints address points
    swapEvents := st.swapEvents ++ [⟨address, usdValue, txHash⟩]
    pointsHistory := st.pointsHistory ++ [⟨address, points, "Swap"⟩]
    leaderboard := upsertAdd st.leaderboard address points }

/-- `DBServiceImpl.CalculateWeeklySharePoolPoints` (service.go lines 120-185), the
distributor wired to `manageCampaign` in `cmd/tradingace/main.go`; part_003's
iteration (lines 266-292) has the same write set. `rows` stands for the result of the
per-user volume query over the trailing 7-day window, `totalVolume` for the window
total; a zero total skips the run. Each iteration adds the share to
`users.total_points` (`UPDATE ... WHERE address = $1`, touching only existing rows)
and appends a `points_history` row; no statement in the transaction touches the
`leaderboard` table. -/
def calculateWeeklySharePoolPointsDB (st : ServiceDBState) (totalVolume : ℚ)
    (rows : List (String × ℚ)) : ServiceDBState :=
  if totalVolume = 0 then st
  else
    rows.foldl (fun s row =>
      let p0 := truncInt (row.2 / totalVolume * 10000)
      let p := if p0 = 0 then 1 else p0
      { s with
        userPoints := fun a =>
          if a = row.1 then (s.userPoints a).map (fun x => x + p) else s.userPoints a
        pointsHistory := s.pointsHistory ++ [⟨row.1, p, "Weekly Share Pool"⟩] }) st

/-- Sum of the `points_history` amounts recorded for an address. -/
def sumHistory (st : ServiceDBState) (address : String) : ℤ :=
  ((st.pointsHistory.filter (fun row => row.address == address)).map
    (fun row => row.points)).sum

/-- The leaderboard aggregate for an address (0 when no row exists). -/
def leaderboardPoints (st : ServiceDBState) (address : String) : ℤ :=
  (st.leaderboard address).getD 0

/-- C1 (code bug): with no uniqueness constraint on `transaction_hash`, replaying the
same hash through `RecordSwapAndUpdatePoints` inserts a second `swap_events` row for
that hash and doubles the user's total points instead of rolling back. -/
theorem recordSwapAndUpdatePoints_not_idempotent :
    (((recordSwapAndUpdatePoints
        (recordSwapAndUpdatePoints emptyServiceDB "0xA" 100 10 "0xh")
        "0xA" 100 10 "0xh").swapEvents.filter (fun s => s.txHash == "0xh")).length = 2)
    ∧ (((recordSwapAndUpdatePoints emptyServiceDB "0xA" 100 10 "0xh").swapEvents.filter
        (fun s => s.txHash == "0xh")).length = 1)
    ∧ ((recordSwapAndUpdatePoints
        (recordSwapAndUpdatePoints emptyServiceDB "0xA" 100 10 "0xh")
        "0xA" 100 10 "0xh").userPoints "0xA" = some 20)
    ∧ ((recordSwapAndUpdatePoints emptyServiceDB "0xA" 100 10 "0xh").userPoints "0xA"
        = some 10) := by
  refine ⟨?_, ?_, ?_, ?_⟩ <;>
    simp [recordSwapAndUpdatePoints, emptyServiceDB, upsertAdd]

/-- C6 (code bug): one recorded swap keeps the leaderboard equal to the history sum,
but a weekly distribution run appends a 10000-point history row while leaving the
leaderboard untouched, so the conservation invariant fails afterwards. -/
theorem weeklyDistribution_breaks_conservation :
    leaderboardPoints (recordSwapAndUpdatePoints emptyServiceDB "0xA" 2000 200 "0xh1")
        "0xA"
      = sumHistory (recordSwapAndUpdatePoints emptyServiceDB "0xA" 2000 200 "0xh1") "0xA"
    ∧ sumHistory (calculateWeeklySharePoolPointsDB
        (recordSwapAndUpdatePoints emptyServiceDB "0xA" 2000 200 "0xh1") 2000
        [("0xA", 2000)]) "0xA" = 200 + 10000
    ∧ leaderboardPoints (calculateWeeklySharePoolPointsDB
        (recordSwapAndUpdatePoints emptyServiceDB "0xA" 2000 200 "0xh1") 2000
        [("0xA", 2000)]) "0xA" = 200
    ∧ leaderboardPoints (calculateWeeklySharePoolPointsDB
        (recordSwapAndUpdatePoints emptyServiceDB "0xA" 2000 200 "0xh1") 2000
        [("0xA", 2000)]) "0xA"
      ≠ sumHistory (calculateWeeklySharePoolPointsDB
        (recordSwapAndUpdatePoints emptyServiceDB "0xA" 2000 200 "0xh1") 2000
        [("0xA", 2000)]) "0xA" := by
  have hshare : (if truncInt ((2000 : ℚ) / 2000 * 10000) = 0 then 1
      else truncInt ((2000 : ℚ) / 2000 * 10000)) = 10000 := by
    have he : ((2000 : ℚ) / 2000 * 10000) = ((10000 : ℤ) : ℚ) := by norm_num
    rw [he, truncInt_eq_floor (by norm_num), Int.floor_intCast]
    norm_num
  have hrun : calculateWeeklySharePoolPointsDB
      (recordSwapAndUpdatePoints emptyServiceDB "0xA" 2000 200 "0xh1") 2000
      [("0xA", 2000)]
      = { userPoints := fun a => if a = "0xA" then
            ((upsertAdd (emptyServiceDB.userPoints) "0xA" 200) a).map (fun x => x + 10000)
          else (upsertAdd (emptyServiceDB.userPoints) "0xA" 200) a
          swapEvents := emptyServiceDB.swapEvents ++ [⟨"0xA", 2000, "0xh1"⟩]
          pointsHistory := (emptyServiceDB.pointsHistory ++ [⟨"0xA", 200, "Swap"⟩])
            ++ [⟨"0xA", 10000, "Weekly Share Pool"⟩]
          leaderboard := upsertAdd (emptyServiceDB.leaderboard) "0xA" 200 } := by
    rw [calculateWeeklySharePoolPointsDB, if_neg (by norm_num : ¬((2000 : ℚ) = 0))]
    simp only [List.foldl_cons, List.foldl_nil, hshare, recordSwapAndUpdatePoints]
  refine ⟨?_, ?_, ?_, ?_⟩
  · simp [leaderboardPoints, sumHistory, recordSwapAndUpdatePoints, emptyServiceDB,
      upsertAdd]
  · rw [hrun]
    simp [sumHistory, emptyServiceDB]
  · rw [hrun]
    simp [leaderboardPoints, emptyServiceDB, upsertAdd]
  · rw [hrun]
    simp [leaderboardPoints, sumHistory, emptyServiceDB, upsertAdd]

/-! ## The block poller (cmd/tradingace/main.go) -/

/-- uint64 subtraction with wrap-around, for `latestBlock - 100` (both operands are
`uint64` in the source). -/
def sub64 (a b : ℕ) : ℕ :=
  (a + (2 ^ 64 - b % 2 ^ 64)) % 2 ^ 64

/-- The observable outcome of one tick of `processEthereumEvents` (main.go lines
142-179): the cursor after the tick, the block range handed to `FetchSwapEvents` (if
the fetch was attempted), and whether `ProcessSwapEvents` completed for the whole
batch. -/
structure TickResult where
  cursor : ℕ
  fetched : Option (ℕ × ℕ)
  processed : Bool
  deriving DecidableEq

/-- One tick of the poller loop in `processEthereumEvents`. `latest` is the outcome of
`GetLatestBlockNumber` (`none` = error), `fetchOk` whether `FetchSwapEvents`
succeeded, `processOk` whether `ProcessSwapEvents` returned nil. A zero cursor is
first re-initialized to `latestBlock - 100` (uint64 arithmetic); only after fetch and
processing both succeed does `lastProcessedBlock = latestBlock` run. -/
def pollTick (lastProcessedBlock : ℕ) (latest : Option ℕ) (fetchOk processOk : Bool) :
    TickResult :=
  match latest with
  | none => ⟨lastProcessedBlock, none, false⟩
  | some latestBlock =>
    let c := if lastProcessedBlock = 0 then sub64 latestBlock 100 else lastProcessedBlock
    if latestBlock ≤ c then ⟨c, none, false⟩
    else if fetchOk = false then ⟨c, some (c + 1, latestBlock), false⟩
    else if processOk = false then ⟨c, some (c + 1, latestBlock), false⟩
    else ⟨latestBlock, some (c + 1, latestBlock), true⟩

theorem pollTick_some (lastProcessedBlock l : ℕ) (fetchOk processOk : Bool)
    (h : lastProcessedBlock ≠ 0) :
    pollTick lastProcessedBlock (some l) fetchOk processOk
      = if l ≤ lastProcessedBlock then ⟨lastProcessedBlock, none, false⟩
        else if fetchOk = false then
          ⟨lastProcessedBlock, some (lastProcessedBlock + 1, l), false⟩
        else if processOk = false then
          ⟨lastProcessedBlock, some (lastProcessedBlock + 1, l), false⟩
        else ⟨l, some (lastProcessedBlock + 1, l), true⟩ := by
  simp only [pollTick, if_neg h]

/-- C7 (amended): for every poller tick whose cursor is already initialized
(`lastProcessedBlock ≠ 0`): a latest block at or below the cursor makes the tick a
no-op; the cursor moves only to a successfully fetched and fully processed latest
block; and any latest-block, fetch or processing failure leaves the cursor
unchanged. -/
theorem pollTick_cursor_discipline (lastProcessedBlock : ℕ) (latest : Option ℕ)
    (fetchOk processOk : Bool) (h : lastProcessedBlock ≠ 0) :
    (∀ l, latest = some l → l ≤ lastProcessedBlock →
      pollTick lastProcessedBlock latest fetchOk processOk
        = ⟨lastProcessedBlock, none, false⟩)
    ∧ ((pollTick lastProcessedBlock latest fetchOk processOk).cursor ≠ lastProcessedBlock →
        (pollTick lastProcessedBlock latest fetchOk processOk).processed = true
        ∧ fetchOk = true ∧ processOk = true
        ∧ latest = some (pollTick lastProcessedBlock latest fetchOk processOk).cursor)
    ∧ ((latest = none ∨ fetchOk = false ∨ processOk = false) →
        (pollTick lastProcessedBlock latest fetchOk processOk).cursor
          = lastProcessedBlock) := by
  cases latest with
  | none =>
    refine ⟨?_, ?_, ?_⟩
    · intro l hl
      exact absurd hl (by simp)
    · intro hcur
      exact absurd rfl hcur
    · intro _
      rfl
  | some l =>
    rw [pollTick_some lastProcessedBlock l fetchOk processOk h]
    by_cases h1 : l ≤ lastProcessedBlock
    · rw [if_pos h1]
      refine ⟨fun _ _ _ => rfl, fun hcur => absurd rfl hcur, fun _ => rfl⟩
    · rw [if_neg h1]
      by_cases h2 : fetchOk = false
      · rw [if_pos h2]
        refine ⟨fun l2 hl2 hle => ?_, fun hcur => absurd rfl hcur, fun _ => rfl⟩
        cases hl2
        exact absurd hle h1
      · rw [if_neg h2]
        by_cases h3 : processOk = false
        · rw [if_pos h3]
          refine ⟨fun l2 hl2 hle => ?_, fun hcur => absurd rfl hcur, fun _ => rfl⟩
          cases hl2
          exact absurd hle h1
        · rw [if_neg h3]
          have hf : fetchOk = true := by
            cases fetchOk
            · exact absurd rfl h2
            · rfl
          have hp : processOk = true := by
            cases processOk
            · exact absurd rfl h3
            · rfl
          refine ⟨fun l2 hl2 hle => ?_, fun _ => ?_, fun hfail => ?_⟩
          · cases hl2
            exact absurd hle h1
          · exact ⟨rfl, hf, hp, rfl⟩
          · rcases hfail with hx | hx | hx
            · exact Option.noConfusion hx
            · exact absurd hx h2
            · exact absurd hx h3

theorem pollTick_cursor_discipline_witness :
    (5 : ℕ) ≠ 0
    ∧ pollTick 5 (some 3) true true = ⟨5, none, false⟩
    ∧ ((some 3 = none ∨ false = false ∨ true = false) → (pollTick 5 (some 3) false true).cursor = 5) :=
  ⟨by decide,
    (pollTick_cursor_discipline 5 (some 3) true true (by decide)).1 3 rfl (by decide),
    (pollTick_cursor_discipline 5 (some 3) false true (by decide)).2.2⟩

/-- C7 counterexample: on the very first tick (cursor 0) with latest block 200, a
failing fetch still moves the cursor from 0 to 100 — the claimed failure framing
(cursor left unchanged on any fetch failure) does not hold for that tick. -/
theorem pollTick_first_tick_moves_cursor_on_failure :
    pollTick 0 (some 200) false false = ⟨100, some (101, 200), false⟩
    ∧ (100 : ℕ) ≠ 0 := by
  constructor
  · decide
  · decide

/-! ## The pub/sub broadcaster (websocket.go) -/

/-- A connected client (websocket.go lines 39-44): its subscription set and its
buffered outbound channel (`send`, capacity 256). `pendingUnregister` records that a
full-buffer broadcast handed the client to the unregister channel. -/
structure WSClient where
  subscriptions : List String
  send : List String
  pendingUnregister : Bool
  deriving DecidableEq

/-- The manager's registry of connected clients, keyed by connection identifier. -/
structure WebSocketManager where
  clients : List (ℕ × WSClient)
  deriving DecidableEq

/-- `subscribe` (websocket.go lines 227-231): `c.subscriptions[topic] = true`. -/
def subscribe (c : WSClient) (topic : String) : WSClient :=
  if c.subscriptions.contains topic then c
  else { c with subscriptions := topic :: c.subscriptions }

/-- `unsubscribe` (websocket.go lines 233-237): `delete(c.subscriptions, topic)`. -/
def unsubscribe (c : WSClient) (topic : String) : WSClient :=
  { c with subscriptions := c.subscriptions.filter (fun t => t != topic) }

/-- `isSubscribed` (websocket.go lines 239-243): map membership, false by default. -/
def isSubscribed (c : WSClient) (topic : String) : Bool :=
  c.subscriptions.contains topic

/-- The per-client body of `BroadcastToTopic` (websocket.go lines 113-124): a client
subscribed to the topic gets the message queued when its buffer has a free slot and is
scheduled for unregistration otherwise; a client not subscribed is left untouched. -/
def deliverTo (topic message : String) (c : WSClient) : WSClient :=
  if isSubscribed c topic then
    if c.send.length < 256 then { c with send := c.send ++ [message] }
    else { c with pendingUnregister := true }
  else c

/-- `BroadcastToTopic` (websocket.go lines 109-126). -/
def broadcastToTopic (m : WebSocketManager) (topic message : String) :
    WebSocketManager :=
  { clients := m.clients.map (fun kc => (kc.1, deliverTo topic message kc.2)) }

/-- The readPump applying an unsubscribe request of one client (websocket.go lines
176-178 dispatching to lines 233-237). -/
def unsubscribeClient (m : WebSocketManager) (id : ℕ) (topic : String) :
    WebSocketManager :=
  { clients := m.clients.map (fun kc =>
      (kc.1, if kc.1 = id then unsubscribe kc.2 topic else kc.2)) }

theorem lookup_map_keyfix {β : Type} (f : ℕ → β → β) :
    ∀ (l : List (ℕ × β)) (id : ℕ),
      (l.map (fun kc => (kc.1, f kc.1 kc.2))).lookup id = (l.lookup id).map (f id)
  | [], _ => rfl
  | (k, v) :: rest, id => by
    cases hk : (id == k) with
    | false =>
      simp only [List.map_cons, List.lookup, hk]
      exact lookup_map_keyfix f rest id
    | true =>
      have hid : id = k := eq_of_beq hk
      subst hid
      simp only [List.map_cons, List.lookup, beq_self_eq_true, Option.map_some']

theorem isSubscribed_unsubscribe (c : WSClient) (topic : String) :
    isSubscribed (unsubscribe c topic) topic = false := by
  rw [Bool.eq_false_iff]
  intro hcon
  have hmem : topic ∈ c.subscriptions.filter (fun t => t != topic) := by
    simpa [isSubscribed, unsubscribe] using hcon
  have := (List.mem_filter.mp hmem).2
  simp at this

/-- C8: a topic-filtered broadcast never touches a client whose subscription set lacks
the topic (in particular, a client subscribed only to `leaderboard` never receives a
`swap_events` message); and after a client unsubscribes from a topic, a subsequent
broadcast to that topic leaves that client — buffer included — unchanged. -/
theorem broadcastToTopic_isolation (m : WebSocketManager) (id : ℕ) (c : WSClient)
    (topic message : String)
    (hc : m.clients.lookup id = some c) (hns : isSubscribed c topic = false) :
    (broadcastToTopic m topic message).clients.lookup id = some c
    ∧ ∀ m2 : WebSocketManager,
        (broadcastToTopic (unsubscribeClient m2 id topic) topic message).clients.lookup id
          = (unsubscribeClient m2 id topic).clients.lookup id := by
  constructor
  · rw [broadcastToTopic]
    rw [lookup_map_keyfix (fun _ cl => deliverTo topic message cl) m.clients id, hc]
    simp [deliverTo, hns]
  · intro m2
    rw [broadcastToTopic]
    rw [lookup_map_keyfix (fun _ cl => deliverTo topic message cl)
      (unsubscribeClient m2 id topic).clients id]
    rw [unsubscribeClient]
    rw [lookup_map_keyfix (fun k cl => if k = id then unsubscribe cl topic else cl)
      m2.clients id]
    cases hl : m2.clients.lookup id with
    | none => rfl
    | some c0 =>
      have hid : (if id = id then unsubscribe c0 topic else c0) = unsubscribe c0 topic :=
        if_pos rfl
      have hnosub : ¬(isSubscribed (unsubscribe c0 topic) topic = true) := by
        simp [isSubscribed_unsubscribe]
      have hfix : deliverTo topic message (unsubscribe c0 topic) = unsubscribe c0 topic := by
        rw [deliverTo, if_neg hnosub]
      simp [hfix]

theorem broadcastToTopic_isolation_witness :
    ((⟨[(1, ⟨["leaderboard"], [], false⟩)]⟩ : WebSocketManager).clients.lookup 1
        = some ⟨["leaderboard"], [], false⟩)
    ∧ isSubscribed ⟨["leaderboard"], [], false⟩ "swap_events" = false
    ∧ (broadcastToTopic ⟨[(1, ⟨["leaderboard"], [], false⟩)]⟩ "swap_events"
        "msg").clients.lookup 1 = some ⟨["leaderboard"], [], false⟩ := by
  have h1 : (⟨[(1, ⟨["leaderboard"], [], false⟩)]⟩ : WebSocketManager).clients.lookup 1
      = some ⟨["leaderboard"], [], false⟩ := by decide
  have h2 : isSubscribed ⟨["leaderboard"], [], false⟩ "swap_events" = false := by decide
  exact ⟨h1, h2,
    (broadcastToTopic_isolation ⟨[(1, ⟨["leaderboard"], [], false⟩)]⟩ 1
      ⟨["leaderboard"], [], false⟩ "swap_events" "msg" h1 h2).1⟩

end TradingAce
